import Mathlib

/-!
Shallow embedding of `src/scripts/reprogen.py` (dfuzzer reproduction-command
generator) and verification of the specification's claims about it.

Modelling conventions:
  * Python strings are Lean `String`; Python lists are Lean `List`.
  * Python list indexing `l[i]`, which raises `IndexError` out of bounds, is
    `getIdx`, returning `Except Unit` (`.error ()` models the exception).
  * Python slices `l[i:j]` (which never raise) are `pySlice`.
  * `print(...)` to stdout/stderr is modelled by accumulating the printed
    lines in two lists; each list element is one newline-terminated line.
  * Python `x in y` is exact membership when `y` is a list and substring
    membership when `y` is a string; `ResultsFilter` keeps the distinction
    because the `--filter` default in the script is the *string* "[Crash]".
-/

namespace Reprogen

/-- Characters stripped by Python's `str.strip()` with no argument. -/
def isPyWhitespace (c : Char) : Bool :=
  c == ' ' || c == '\t' || c == '\n' || c == '\r' || c == '\x0b' || c == '\x0c'

/-- Python `line.strip()`. -/
def pyStrip (s : String) : String :=
  ⟨((s.data.dropWhile isPyWhitespace).reverse.dropWhile isPyWhitespace).reverse⟩

/-- Python `str.split(sep)` for a single-character separator, over the
character list: `"".split(';') = ['']`, `"a;;b".split(';') = ['a','','b']`. -/
def pySplitChar (sep : Char) : List Char → List (List Char)
  | [] => [[]]
  | c :: rest =>
    match pySplitChar sep rest with
    | [] => [[]]
    | f :: r => if c == sep then [] :: f :: r else (c :: f) :: r

/-- `line.strip().split(';')` from `main` in reprogen.py. -/
def splitFields (line : String) : List String :=
  (pySplitChar ';' (pyStrip line).data).map (fun cs => ⟨cs⟩)

/-- Python `os.path.basename`: the part after the last '/'. -/
def basename (p : String) : String :=
  (((pySplitChar '/' p.data).map (fun cs => (⟨cs⟩ : String))).getLastD "")

/-- Python list indexing `l[i]` for a non-negative index: raises `IndexError`
(modelled as `.error ()`) when out of bounds. -/
def getIdx {α : Type} (l : List α) (i : Nat) : Except Unit α :=
  match l.get? i with
  | some a => .ok a
  | none => .error ()

/-- Python slice `l[i:j]` for non-negative bounds (never raises). -/
def pySlice {α : Type} (l : List α) (i j : Nat) : List α :=
  (l.drop i).take (j - i)

/-- Python `range(start, stop, step)` for a positive step. -/
def pyRange (start stop step : Nat) : List Nat :=
  (List.range ((stop - start + step - 1) / step)).map (fun k => start + step * k)

/-- `DBUS_SEND_DICT` from reprogen.py (note the source's `unit16` for `q`). -/
def DBUS_SEND_DICT : List (String × String) :=
  [("n", "int16"), ("q", "unit16"), ("i", "int32"), ("u", "uint32"),
   ("x", "int64"), ("t", "uint64"), ("d", "double"), ("y", "byte"),
   ("b", "boolean")]

/-- `DBUS_SEND_STRINGS_DICT` from reprogen.py. -/
def DBUS_SEND_STRINGS_DICT : List (String × String) :=
  [("s", "string"), ("o", "objpath")]

/-- Python dict membership/lookup over the association lists above. -/
def dictLookup (d : List (String × String)) (k : String) : Option String :=
  (d.find? (fun p => p.1 == k)).map (fun p => p.2)

/-- Return value of `_dbus_send_format`: either the accumulated string `ret`,
or the Python empty list `[]` returned on an unsupported argument type. -/
inductive FormatResult
  | str (s : String)
  | emptyList
deriving DecidableEq

/-- Python substring membership `needle in hay` for strings. -/
def charsStartWith : List Char → List Char → Bool
  | [], _ => true
  | _ :: _, [] => false
  | a :: as, b :: bs => a == b && charsStartWith as bs

/-- Python `needle in hay` where both are strings (substring test). -/
def pyInStr (needle hay : String) : Bool :=
  (List.range (hay.data.length + 1)).any
    (fun i => charsStartWith needle.data (hay.data.drop i))

/-- Loop body of `_dbus_send_format` (reprogen.py lines 21-35), with the
accumulator `ret`; stderr lines are collected in the second component. -/
def dbus_send_format_go : List (List String) → String →
    Except Unit (FormatResult × List String)
  | [], ret => .ok (.str ret, [])
  | arg :: rest, ret => do
    let a0 ← getIdx arg 0
    if a0 == "/" then
      dbus_send_format_go rest ret
    else
      match dictLookup DBUS_SEND_DICT a0 with
      | some ty => do
        let a1 ← getIdx arg 1
        dbus_send_format_go rest (ret ++ ty ++ ":" ++ a1 ++ " ")
      | none =>
        match dictLookup DBUS_SEND_STRINGS_DICT a0 with
        | some ty => do
          let a1 ← getIdx arg 1
          dbus_send_format_go rest
            (ret ++ ty ++ ":\"`echo " ++ a1 ++ " | xxd -r -p`\" ")
        | none =>
          .ok (.emptyList,
            ["Argument type " ++ a0 ++ " unsupported for dbus_send"])

/-- `_dbus_send_format(args)` from reprogen.py. -/
def dbus_send_format (args : List (List String)) :
    Except Unit (FormatResult × List String) :=
  dbus_send_format_go args ""

/-- `dbus_send(bus, name, iface, obj, method, args)` from reprogen.py: prints
exactly one stdout line; note that the `[]` returned by `_dbus_send_format`
on an unsupported type is interpolated by `format` as the text "[]". -/
def dbus_send (bus name iface obj method : String) (args : List (List String)) :
    Except Unit (List String × List String) := do
  let (fr, errs) ← dbus_send_format args
  let argstr := match fr with | .str s => s | .emptyList => "[]"
  .ok (["dbus-send --" ++ bus ++ " --dest=" ++ name ++ " --print-reply " ++
        obj ++ " " ++ iface ++ "." ++ method ++ " " ++ argstr], errs)

/-- Loop body of `_gdbus_format` (reprogen.py lines 43-52). The membership
test `arg[0] in 'sogv'` is Python substring membership. -/
def gdbus_format_go : List (List String) → String → Except Unit String
  | [], ret => .ok ret
  | arg :: rest, ret => do
    let a0 ← getIdx arg 0
    if a0 == "/" then
      gdbus_format_go rest ret
    else if pyInStr a0 "sogv" then do
      let a1 ← getIdx arg 1
      gdbus_format_go rest (ret ++ "\"`echo " ++ a1 ++ " | xxd -r -p`\" ")
    else do
      let a1 ← getIdx arg 1
      gdbus_format_go rest (ret ++ a1 ++ " ")

/-- `_gdbus_format(args)` from reprogen.py. -/
def gdbus_format (args : List (List String)) : Except Unit String :=
  gdbus_format_go args ""

/-- `gdbus(bus, name, iface, obj, method, args)` from reprogen.py. -/
def gdbus (bus name iface obj method : String) (args : List (List String)) :
    Except Unit (List String × List String) := do
  let s ← gdbus_format args
  .ok (["gdbus call --" ++ bus ++ " --dest " ++ name ++ " --object-path " ++
        obj ++ " --method " ++ iface ++ "." ++ method ++ " " ++ s], [])

/-- The two formatter functions that can be passed as `process` to `main`
(the values of the `functions` dict in reprogen.py). -/
inductive Target
  | dbus_send
  | gdbus
deriving DecidableEq

/-- Dispatch of the `process` callback to the corresponding formatter. -/
def Target.run : Target → String → String → String → String → String →
    List (List String) → Except Unit (List String × List String)
  | .dbus_send, bus, name, iface, obj, method, args =>
      Reprogen.dbus_send bus name iface obj method args
  | .gdbus, bus, name, iface, obj, method, args =>
      Reprogen.gdbus bus name iface obj method args

/-- The `results_filter` argument of `main`: a list of strings when `--filter`
was supplied (argparse `nargs='+'`), or the raw default, which in the source
is the *string* `'[Crash]'`. Python `x in results_filter` is exact list
membership in the first case and substring membership in the second. -/
inductive ResultsFilter
  | strList (l : List String)
  | str (s : String)
deriving DecidableEq

/-- Python `x in results_filter`. -/
def ResultsFilter.mem (f : ResultsFilter) (x : String) : Bool :=
  match f with
  | .strList l => l.contains x
  | .str s => pyInStr x s

/-- The argument-pair list comprehension in `main` (reprogen.py lines 79-80):
`[parsed_line[i:i+2] for i in range(3, len(parsed_line)-1, 2)]`. -/
def argPairs (parsed_line : List String) : List (List String) :=
  (pyRange 3 (parsed_line.length - 1) 2).map (fun i => pySlice parsed_line i (i + 2))

/-- Processing of one already-split line inside the loop of `main`:
the filter gate on `parsed_line[-1]` and the call to `process`. -/
def processParsed (bus : String) (tgt : Target) (nameUsed : String)
    (flt : ResultsFilter) (parsed_line : List String) :
    Except Unit (List String × List String) := do
  let last ← getIdx parsed_line (parsed_line.length - 1)
  if ResultsFilter.mem flt last then do
    let p0 ← getIdx parsed_line 0
    let p1 ← getIdx parsed_line 1
    let p2 ← getIdx parsed_line 2
    Target.run tgt bus nameUsed p0 p1 p2 (argPairs parsed_line)
  else
    .ok ([], [])

/-- One iteration of the `for line in fileinput.input(files)` loop of `main`,
for a line whose resolved source name is `nameUsed`. -/
def processLine (bus : String) (tgt : Target) (nameUsed : String)
    (flt : ResultsFilter) (line : String) :
    Except Unit (List String × List String) :=
  processParsed bus tgt nameUsed flt (splitFields line)

/-- Number of semicolon-separated fields of a (stripped) line. -/
def numFields (line : String) : Nat := (splitFields line).length

/-- Last field of a split list (`parsed_line[-1]`, total since the split
is never empty). -/
def lastField (parsed_line : List String) : String :=
  (parsed_line.get? (parsed_line.length - 1)).getD ""

/-- The result classification of a line: its last semicolon-separated field. -/
def resultOf (line : String) : String := lastField (splitFields line)

/-- The source name `main` passes to `process` for the current line:
`name_for_stdin if fileinput.isstdin() else os.path.basename(fileinput.filename())`
(Python would format a missing stdin name as the text "None"). -/
def nameUsedFor (name_for_stdin : Option String) (fname : String) : String :=
  if fname == "-" then
    match name_for_stdin with
    | some n => n
    | none => "None"
  else basename fname

/-- One input source given on the command line: its path as given (`"-"` for
standard input) and the lines it yields, each without its trailing newline. -/
structure InputFile where
  name : String
  lines : List String
deriving DecidableEq

/-- The (source path, line) stream produced by `fileinput.input(files)`. -/
def fileLines : List InputFile → List (String × String)
  | [] => []
  | f :: rest => (f.lines.map (fun l => (f.name, l))) ++ fileLines rest

/-- The whole `for` loop of `main` over the line stream. -/
def runLines (bus : String) (tgt : Target) (name_for_stdin : Option String)
    (flt : ResultsFilter) : List (String × String) →
    Except Unit (List String × List String)
  | [] => .ok ([], [])
  | p :: rest => do
    let (o1, e1) ← processLine bus tgt (nameUsedFor name_for_stdin p.1) flt p.2
    let (o2, e2) ← runLines bus tgt name_for_stdin flt rest
    .ok (o1 ++ o2, e1 ++ e2)

/-- `main(bus, process, name_for_stdin, results_filter, files)` from
reprogen.py: the Bool is its return value, the two lists its stdout and
stderr lines. -/
def main (bus : String) (tgt : Target) (name_for_stdin : Option String)
    (flt : ResultsFilter) (files : List InputFile) :
    Except Unit (Bool × List String × List String) :=
  if name_for_stdin.isNone && files.any (fun f => f.name == "-") then
    .ok (false, [], [])
  else do
    let (o, e) ← runLines bus tgt name_for_stdin flt (fileLines files)
    .ok (true, o, e)

/-- The `choices` of the `--target` option (reprogen.py line 92): gdbus is
commented out as temporarily disabled. -/
def targetChoices : List String := ["dbus-send"]

/-- The `default` of the `--target` option. -/
def defaultTarget : String := "dbus-send"

/-- The `choices` of the `--filter` option. -/
def filterChoices : List String := ["Crash", "Success", "Command execution error"]

/-- The `default` of the `--filter` option: in the source it is the string
`'[Crash]'`, not the list `['Crash']`. -/
def defaultFilter : ResultsFilter := .str "[Crash]"

/-- The `functions` dict of the `__main__` block. -/
def functions : List (String × Target) :=
  [("dbus-send", .dbus_send), ("gdbus", .gdbus)]

/-- Lookup `functions[k]`. -/
def lookupTarget (k : String) : Option Target :=
  ((functions.find? (fun p => p.1 == k)).map (fun p => p.2))

/-- Stands for the usage line printed by `p.print_usage(file=sys.stderr)`;
its exact text is generated by the argparse library and is not modelled,
only its presence on stderr. -/
def usageText : String := "usage: reprogen.py"

/-- The message printed (by a plain `print`, hence to stdout) when `main`
returns False. -/
def stdinRequiredMsg (argv0 : String) : String :=
  argv0 ++ ": When taking input from stdin, you must specify bus name"

/-- The `__main__` block after argument parsing: stdout lines, stderr lines
and the process exit status. -/
def runProgram (system : Bool) (tgt : Target) (name : Option String)
    (flt : ResultsFilter) (files : List InputFile) (argv0 : String) :
    Except Unit (List String × List String × Nat) :=
  match main (if system then "system" else "session") tgt name flt files with
  | .error e => .error e
  | .ok (true, o, e) => .ok (o, e, 0)
  | .ok (false, o, e) => .ok (o ++ [stdinRequiredMsg argv0], e ++ [usageText], 2)


/-- The text `_dbus_send_format` appends for one argument pair `(t, v)`:
`none` when the tag is unsupported (the function then returns `[]`). -/
def dbusArgToken (t v : String) : Option String :=
  if t == "/" then some ""
  else match dictLookup DBUS_SEND_DICT t with
  | some ty => some (ty ++ ":" ++ v ++ " ")
  | none =>
    match dictLookup DBUS_SEND_STRINGS_DICT t with
    | some ty => some (ty ++ ":\"`echo " ++ v ++ " | xxd -r -p`\" ")
    | none => none

/-- Concatenation of the per-argument texts for `_dbus_send_format`. -/
def dbusTokens : List (String × String) → String
  | [] => ""
  | p :: rest => (dbusArgToken p.1 p.2).getD "" ++ dbusTokens rest

/-- The text `_gdbus_format` appends for one argument pair `(t, v)`. -/
def gdbusArgToken (t v : String) : String :=
  if t == "/" then ""
  else if pyInStr t "sogv" then "\"`echo " ++ v ++ " | xxd -r -p`\" "
  else v ++ " "

/-- Concatenation of the per-argument texts for `_gdbus_format`. -/
def gdbusTokens : List (String × String) → String
  | [] => ""
  | p :: rest => gdbusArgToken p.1 p.2 ++ gdbusTokens rest

/-- The stdout lines one line of input contributes (none if it raised). -/
def stdoutOfLine (bus : String) (tgt : Target) (nameUsed : String)
    (flt : ResultsFilter) (line : String) : List String :=
  match processLine bus tgt nameUsed flt line with
  | .ok (o, _) => o
  | .error _ => []

/-- The stderr lines one line of input contributes (none if it raised). -/
def stderrOfLine (bus : String) (tgt : Target) (nameUsed : String)
    (flt : ResultsFilter) (line : String) : List String :=
  match processLine bus tgt nameUsed flt line with
  | .ok (_, e) => e
  | .error _ => []

/-- Concatenated per-line stdout over a (source, line) stream. -/
def linesStdout (bus : String) (tgt : Target) (name_for_stdin : Option String)
    (flt : ResultsFilter) : List (String × String) → List String
  | [] => []
  | p :: rest =>
    stdoutOfLine bus tgt (nameUsedFor name_for_stdin p.1) flt p.2 ++
      linesStdout bus tgt name_for_stdin flt rest

/-- Concatenated per-line stderr over a (source, line) stream. -/
def linesStderr (bus : String) (tgt : Target) (name_for_stdin : Option String)
    (flt : ResultsFilter) : List (String × String) → List String
  | [] => []
  | p :: rest =>
    stderrOfLine bus tgt (nameUsedFor name_for_stdin p.1) flt p.2 ++
      linesStderr bus tgt name_for_stdin flt rest

/-- A well-formed log line in the documented wire format
`interface;object_path;method;type1;value1;...;result`: at least the three
header fields plus the result, with the argument fields in pairs. -/
def validLine (line : String) : Prop :=
  4 ≤ numFields line ∧ numFields line % 2 = 0

instance (line : String) : Decidable (validLine line) := by
  unfold validLine; infer_instance

/-! ### Auxiliary lemmas -/

theorem ebind_ok {ε α β : Type} (a : α) (f : α → Except ε β) :
    ((Except.ok a : Except ε α) >>= f) = f a := rfl

theorem ebind_error {ε α β : Type} (e : ε) (f : α → Except ε β) :
    ((Except.error e : Except ε α) >>= f) = (.error e : Except ε β) := rfl

theorem getIdx_eq_ok {α : Type} (l : List α) (i : Nat) (h : i < l.length) :
    getIdx l i = .ok (l.get ⟨i, h⟩) := by
  simp only [getIdx, List.get?_eq_get h]

theorem pySplitChar_ne_nil (sep : Char) (l : List Char) :
    pySplitChar sep l ≠ [] := by
  cases l with
  | nil => simp [pySplitChar]
  | cons c rest =>
    simp only [pySplitChar]
    cases pySplitChar sep rest with
    | nil => simp
    | cons f r =>
      dsimp only
      split <;> simp

theorem splitFields_ne_nil (line : String) : splitFields line ≠ [] := by
  simp only [splitFields, ne_eq, List.map_eq_nil_iff]
  exact pySplitChar_ne_nil _ _

/-! ### C1 -/

/-- C1: a filter-passing record with an unrecognized type tag (`z`) under
Profile A produces the diagnostic naming `z` and the target on stderr and
the run continues and exits zero — but, contrary to the claim, the record
does NOT emit zero stdout lines: `dbus_send` prints unconditionally, so the
`[]` sentinel returned by `_dbus_send_format` is interpolated into an output
line ending in `[]`. This theorem evaluates the program at the failing
input and exhibits that stdout line. -/
theorem c1_unsupported_emits_line :
    runProgram false Target.dbus_send none (.strList ["Crash"])
        [⟨"f", ["i;/o;m;z;00;Crash", "i2;/o2;m2;Crash"]⟩] "prog"
      = .ok (["dbus-send --session --dest=f --print-reply /o i.m []",
              "dbus-send --session --dest=f --print-reply /o2 i2.m2 "],
             ["Argument type z unsupported for dbus_send"], 0) := rfl

/-! ### C2 -/

/-- C2: with no `--filter` option the effective filter is the argparse
default, which in the source is the *string* `'[Crash]'`; Python `in` on a
string is substring membership, so the gate passes not only `Crash` but any
substring of `[Crash]` — here the classification `Cras` (which is not
`Crash`) passes and produces an output line, refuting the claim that only
the exact classification `Crash` passes. -/
theorem c2_default_filter_substring :
    defaultFilter = ResultsFilter.str "[Crash]"
    ∧ ResultsFilter.mem defaultFilter "Cras" = true
    ∧ "Cras" ≠ "Crash"
    ∧ ResultsFilter.mem defaultFilter "" = true
    ∧ runProgram false Target.dbus_send none defaultFilter
          [⟨"f", ["i;o;m;Cras"]⟩] "prog"
        = .ok (["dbus-send --session --dest=f --print-reply o i.m "], [], 0) :=
  ⟨rfl, rfl, by decide, rfl, rfl⟩

/-! ### C4 -/

/-- C4: the concrete scenario. The input line
`org.freedesktop.Test;/obj;DoThing;s;68656c6c6f;Crash` read from a file
named `org.freedesktop.Test`, with filter set `{Crash}`, Profile A
(`dbus-send`) and the session bus, produces exactly the expected single
stdout line (with its trailing space); with filter set `{Success}` the same
line produces zero output lines. -/
theorem c4_concrete_scenario :
    main "session" Target.dbus_send none (.strList ["Crash"])
        [⟨"org.freedesktop.Test",
          ["org.freedesktop.Test;/obj;DoThing;s;68656c6c6f;Crash"]⟩]
      = .ok (true,
          ["dbus-send --session --dest=org.freedesktop.Test --print-reply /obj org.freedesktop.Test.DoThing string:\"`echo 68656c6c6f | xxd -r -p`\" "],
          [])
    ∧ main "session" Target.dbus_send none (.strList ["Success"])
        [⟨"org.freedesktop.Test",
          ["org.freedesktop.Test;/obj;DoThing;s;68656c6c6f;Crash"]⟩]
      = .ok (true, [], []) :=
  ⟨rfl, rfl⟩

/-! ### C7 -/

/-- C7: the claim says every primitive tag is rendered with its canonical
type name (int16/uint16/int32/uint32/int64/uint64/double/byte/boolean), but
the source's `DBUS_SEND_DICT` maps the tag `q` to the misspelling `unit16`,
so an argument `(q, 5)` is rendered as `unit16:5`, which is not of the
claimed form (and is not valid dbus-send syntax). -/
theorem c7_q_typo_unit16 :
    dictLookup DBUS_SEND_DICT "q" = some "unit16"
    ∧ "unit16" ≠ "uint16"
    ∧ main "session" Target.dbus_send none (.strList ["Crash"])
          [⟨"f", ["i;o;m;q;5;Crash"]⟩]
        = .ok (true, ["dbus-send --session --dest=f --print-reply o i.m unit16:5 "], []) :=
  ⟨rfl, by decide, rfl⟩

/-! ### C3: counterexample -/

/-- C3 counterexample: the claim says the CLI target selector accepts both
profile names, but `gdbus` is not among the argparse `choices` for
`--target` (it is commented out in the source as temporarily disabled), so
a `--target gdbus` invocation is rejected by argparse. -/
theorem c3_counterexample : targetChoices.contains "gdbus" = false := rfl

/-! ### C5: counterexample -/

/-- C5 counterexample: with `-` among the sources and no `--name`, the
program prints usage to stderr and exits 2 as claimed, but the
bus-name-required message is printed by a plain `print`, i.e. to standard
output — so stdout is not empty, refuting the claim's "emits zero stdout
lines". -/
theorem c5_counterexample :
    runProgram false Target.dbus_send none (.strList ["Crash"])
        [⟨"-", ["a;b;c;Crash"]⟩] "reprogen.py"
      = .ok (["reprogen.py: When taking input from stdin, you must specify bus name"],
             [usageText], 2)
    ∧ ["reprogen.py: When taking input from stdin, you must specify bus name"]
        ≠ ([] : List String) :=
  ⟨rfl, by decide⟩

/-! ### C9: counterexample -/

/-- C9 counterexample: the claim asserts that a filter-passing line whose
fields between the method name and the result classification are odd in
count, with the dangling tag recognized, raises an unhandled IndexError.
It does not: the Python slice `parsed_line[i:i+2]` never yields a
one-element list here — for the line `i;o;m;s;Crash` the dangling tag `s`
is paired with the result-classification field `Crash` itself, and the
record is formatted without any exception. -/
theorem c9_counterexample :
    processLine "session" Target.dbus_send "f" (.strList ["Crash"]) "i;o;m;s;Crash"
      = .ok (["dbus-send --session --dest=f --print-reply o i.m string:\"`echo Crash | xxd -r -p`\" "],
             []) := rfl

theorem length_two_pair {α : Type} {a : List α} (h : a.length = 2) :
    ∃ t v, a = [t, v] := by
  cases a with
  | nil => simp at h
  | cons t rest =>
    cases rest with
    | nil => simp at h
    | cons v rest2 =>
      cases rest2 with
      | nil => exact ⟨t, v, rfl⟩
      | cons x xs => simp only [List.length_cons] at h; omega

theorem pyRange_mem_add_two_le {i stop : Nat} (h : i ∈ pyRange 3 stop 2) :
    i + 2 ≤ stop + 1 := by
  simp only [pyRange, List.mem_map, List.mem_range] at h
  obtain ⟨k, hk, rfl⟩ := h
  omega

theorem argPairs_length_two {parsed : List String} (h3 : 3 ≤ parsed.length) :
    ∀ a ∈ argPairs parsed, a.length = 2 := by
  intro a ha
  simp only [argPairs, List.mem_map] at ha
  obtain ⟨i, hi, rfl⟩ := ha
  have h2 := pyRange_mem_add_two_le hi
  simp only [pySlice, List.length_take, List.length_drop]
  omega

theorem dbus_send_format_go_cons (t v : String) (rest : List (List String))
    (ret : String) :
    dbus_send_format_go ([t, v] :: rest) ret =
      if t == "/" then dbus_send_format_go rest ret
      else match dictLookup DBUS_SEND_DICT t with
      | some ty => dbus_send_format_go rest (ret ++ ty ++ ":" ++ v ++ " ")
      | none =>
        match dictLookup DBUS_SEND_STRINGS_DICT t with
        | some ty =>
          dbus_send_format_go rest
            (ret ++ ty ++ ":\"`echo " ++ v ++ " | xxd -r -p`\" ")
        | none =>
          .ok (.emptyList,
            ["Argument type " ++ t ++ " unsupported for dbus_send"]) := rfl

theorem gdbus_format_go_cons (t v : String) (rest : List (List String))
    (ret : String) :
    gdbus_format_go ([t, v] :: rest) ret =
      if t == "/" then gdbus_format_go rest ret
      else if pyInStr t "sogv" then
        gdbus_format_go rest (ret ++ "\"`echo " ++ v ++ " | xxd -r -p`\" ")
      else gdbus_format_go rest (ret ++ v ++ " ") := rfl

theorem dbus_send_format_go_ok (args : List (List String))
    (h : ∀ a ∈ args, a.length = 2) :
    ∀ ret : String, ∃ r errs, dbus_send_format_go args ret = .ok (r, errs) := by
  induction args with
  | nil => exact fun ret => ⟨.str ret, [], rfl⟩
  | cons a rest ih =>
    intro ret
    obtain ⟨t, v, rfl⟩ := length_two_pair (h a (by simp))
    have hrest : ∀ a ∈ rest, a.length = 2 := fun a ha => h a (by simp [ha])
    rw [dbus_send_format_go_cons]
    by_cases h0 : t == "/"
    · rw [if_pos h0]; exact ih hrest ret
    · rw [if_neg h0]
      cases hd : dictLookup DBUS_SEND_DICT t with
      | some ty => exact ih hrest _
      | none =>
        cases hs : dictLookup DBUS_SEND_STRINGS_DICT t with
        | some ty => exact ih hrest _
        | none => exact ⟨.emptyList, _, rfl⟩

theorem gdbus_format_go_ok (args : List (List String))
    (h : ∀ a ∈ args, a.length = 2) :
    ∀ ret : String, ∃ s, gdbus_format_go args ret = .ok s := by
  induction args with
  | nil => exact fun ret => ⟨ret, rfl⟩
  | cons a rest ih =>
    intro ret
    obtain ⟨t, v, rfl⟩ := length_two_pair (h a (by simp))
    have hrest : ∀ a ∈ rest, a.length = 2 := fun a ha => h a (by simp [ha])
    rw [gdbus_format_go_cons]
    by_cases h0 : t == "/"
    · rw [if_pos h0]; exact ih hrest ret
    · rw [if_neg h0]
      by_cases h1 : pyInStr t "sogv"
      · rw [if_pos h1]; exact ih hrest _
      · rw [if_neg h1]; exact ih hrest _

theorem dbus_send_eq_of_format (bus nm iface obj method : String)
    (args : List (List String)) (r : FormatResult) (errs : List String)
    (hr : dbus_send_format_go args "" = .ok (r, errs)) :
    dbus_send bus nm iface obj method args
      = .ok (["dbus-send --" ++ bus ++ " --dest=" ++ nm ++ " --print-reply " ++
              obj ++ " " ++ iface ++ "." ++ method ++ " " ++
              (match r with | .str s => s | .emptyList => "[]")], errs) := by
  simp only [dbus_send, dbus_send_format, hr, ebind_ok]
  cases r <;> rfl

theorem gdbus_eq_of_format (bus nm iface obj method : String)
    (args : List (List String)) (s : String)
    (hs : gdbus_format_go args "" = .ok s) :
    gdbus bus nm iface obj method args
      = .ok (["gdbus call --" ++ bus ++ " --dest " ++ nm ++ " --object-path " ++
              obj ++ " --method " ++ iface ++ "." ++ method ++ " " ++ s], []) := by
  simp only [gdbus, gdbus_format, hs, ebind_ok]

theorem Target.run_one_line (tgt : Target) (bus nm iface obj method : String)
    (args : List (List String)) (h : ∀ a ∈ args, a.length = 2) :
    ∃ out errs, Target.run tgt bus nm iface obj method args = .ok ([out], errs) := by
  cases tgt with
  | dbus_send =>
    obtain ⟨r, errs, hr⟩ := dbus_send_format_go_ok args h ""
    exact ⟨_, errs, dbus_send_eq_of_format bus nm iface obj method args r errs hr⟩
  | gdbus =>
    obtain ⟨s, hs⟩ := gdbus_format_go_ok args h ""
    exact ⟨_, [], gdbus_eq_of_format bus nm iface obj method args s hs⟩

theorem lastField_eq_get {parsed : List String}
    (h : parsed.length - 1 < parsed.length) :
    lastField parsed = parsed.get ⟨parsed.length - 1, h⟩ := by
  simp only [lastField, List.get?_eq_get h, Option.getD_some]

theorem processParsed_mem_true (bus : String) (tgt : Target) (nameUsed : String)
    (flt : ResultsFilter) (parsed : List String) (h3 : 3 ≤ parsed.length)
    (hm : ResultsFilter.mem flt (lastField parsed) = true) :
    ∃ out errs, processParsed bus tgt nameUsed flt parsed = .ok ([out], errs) := by
  have hlast : parsed.length - 1 < parsed.length := by omega
  have h0 : 0 < parsed.length := by omega
  have h1 : 1 < parsed.length := by omega
  have h2 : 2 < parsed.length := by omega
  have hmem : ResultsFilter.mem flt (parsed.get ⟨parsed.length - 1, hlast⟩) = true := by
    rw [← lastField_eq_get hlast]; exact hm
  simp only [processParsed, getIdx_eq_ok _ _ hlast, ebind_ok, hmem, if_true,
    getIdx_eq_ok _ _ h0, getIdx_eq_ok _ _ h1, getIdx_eq_ok _ _ h2]
  exact Target.run_one_line tgt bus nameUsed _ _ _ (argPairs parsed)
    (argPairs_length_two h3)

theorem processParsed_mem_false (bus : String) (tgt : Target) (nameUsed : String)
    (flt : ResultsFilter) (parsed : List String) (h1 : 1 ≤ parsed.length)
    (hm : ResultsFilter.mem flt (lastField parsed) = false) :
    processParsed bus tgt nameUsed flt parsed = .ok ([], []) := by
  have hlast : parsed.length - 1 < parsed.length := by omega
  have hmem : ResultsFilter.mem flt (parsed.get ⟨parsed.length - 1, hlast⟩) = false := by
    rw [← lastField_eq_get hlast]; exact hm
  simp only [processParsed, getIdx_eq_ok _ _ hlast, ebind_ok, hmem,
    Bool.false_eq_true, if_false]

theorem processLine_mem_true (bus : String) (tgt : Target) (nameUsed : String)
    (flt : ResultsFilter) (line : String) (h3 : 3 ≤ numFields line)
    (hm : ResultsFilter.mem flt (resultOf line) = true) :
    ∃ out errs, processLine bus tgt nameUsed flt line = .ok ([out], errs) :=
  processParsed_mem_true bus tgt nameUsed flt (splitFields line) h3 hm

theorem processLine_mem_false (bus : String) (tgt : Target) (nameUsed : String)
    (flt : ResultsFilter) (line : String)
    (hm : ResultsFilter.mem flt (resultOf line) = false) :
    processLine bus tgt nameUsed flt line = .ok ([], []) :=
  processParsed_mem_false bus tgt nameUsed flt (splitFields line)
    (by
      have := splitFields_ne_nil line
      cases h : splitFields line with
      | nil => exact absurd h this
      | cons a rest => simp [h])
    hm

theorem processLine_ok (bus : String) (tgt : Target) (nameUsed : String)
    (flt : ResultsFilter) (line : String) (h3 : 3 ≤ numFields line) :
    ∃ o e, processLine bus tgt nameUsed flt line = .ok (o, e) := by
  by_cases hm : ResultsFilter.mem flt (resultOf line) = true
  · obtain ⟨out, errs, h⟩ := processLine_mem_true bus tgt nameUsed flt line h3 hm
    exact ⟨[out], errs, h⟩
  · exact ⟨[], [],
      processLine_mem_false bus tgt nameUsed flt line
        (Bool.eq_false_iff.mpr hm)⟩

theorem runLines_eq (bus : String) (tgt : Target) (nm : Option String)
    (flt : ResultsFilter) (lines : List (String × String))
    (h : ∀ p ∈ lines, ∃ o e,
      processLine bus tgt (nameUsedFor nm p.1) flt p.2 = .ok (o, e)) :
    runLines bus tgt nm flt lines
      = .ok (linesStdout bus tgt nm flt lines, linesStderr bus tgt nm flt lines) := by
  induction lines with
  | nil => rfl
  | cons p rest ih =>
    obtain ⟨o, e, hp⟩ := h p (by simp)
    have hrest : ∀ q ∈ rest, ∃ o e,
        processLine bus tgt (nameUsedFor nm q.1) flt q.2 = .ok (o, e) :=
      fun q hq => h q (List.mem_cons_of_mem p hq)
    simp only [runLines, linesStdout, linesStderr, hp, ebind_ok, ih hrest,
      stdoutOfLine, stderrOfLine]

theorem fileLines_mem {files : List InputFile} {p : String × String}
    (hp : p ∈ fileLines files) : ∃ f ∈ files, p.1 = f.name ∧ p.2 ∈ f.lines := by
  induction files with
  | nil => simp [fileLines] at hp
  | cons f rest ih =>
    simp only [fileLines, List.mem_append, List.mem_map] at hp
    rcases hp with ⟨l, hl, rfl⟩ | hp
    · exact ⟨f, by simp, rfl, hl⟩
    · obtain ⟨g, hg, hg1, hg2⟩ := ih hp
      exact ⟨g, by simp [hg], hg1, hg2⟩

/-! ### C6 -/

/-- C6: for well-formed input lines and a caller-supplied filter list, `main`
succeeds (returns True) and its stdout is exactly the in-order concatenation
of the per-line outputs; a line whose result classification (last field) is
in the filter set contributes exactly one stdout line, and a line whose
classification is not in the set contributes no stdout (and no stderr)
line. -/
theorem c6_filter_gate (bus : String) (tgt : Target) (nm : String)
    (flt : List String) (files : List InputFile)
    (hv : ∀ f ∈ files, ∀ l ∈ f.lines, validLine l) :
    main bus tgt (some nm) (.strList flt) files
      = .ok (true,
          linesStdout bus tgt (some nm) (.strList flt) (fileLines files),
          linesStderr bus tgt (some nm) (.strList flt) (fileLines files))
    ∧ ∀ f ∈ files, ∀ l ∈ f.lines,
        (flt.contains (resultOf l) = true →
          (stdoutOfLine bus tgt (nameUsedFor (some nm) f.name) (.strList flt) l).length
            = 1)
        ∧ (flt.contains (resultOf l) = false →
          stdoutOfLine bus tgt (nameUsedFor (some nm) f.name) (.strList flt) l = []
          ∧ stderrOfLine bus tgt (nameUsedFor (some nm) f.name) (.strList flt) l
              = []) := by
  constructor
  · have hall : ∀ p ∈ fileLines files, ∃ o e,
        processLine bus tgt (nameUsedFor (some nm) p.1) (.strList flt) p.2
          = .ok (o, e) := by
      intro p hp
      obtain ⟨f, hf, _, h2⟩ := fileLines_mem hp
      exact processLine_ok bus tgt _ _ p.2 (by have := (hv f hf p.2 h2).1; omega)
    simp only [main, Option.isNone_some, Bool.false_and, Bool.false_eq_true,
      if_false, runLines_eq bus tgt (some nm) (.strList flt) (fileLines files) hall,
      ebind_ok]
  · intro f hf l hl
    have h3 : 3 ≤ numFields l := by have := (hv f hf l hl).1; omega
    constructor
    · intro hin
      obtain ⟨out, errs, h⟩ :=
        processLine_mem_true bus tgt (nameUsedFor (some nm) f.name) (.strList flt)
          l h3 hin
      simp [stdoutOfLine, h]
    · intro hout
      have h := processLine_mem_false bus tgt (nameUsedFor (some nm) f.name)
        (.strList flt) l hout
      exact ⟨by simp [stdoutOfLine, h], by simp [stderrOfLine, h]⟩

/-- Witness for C6 at a concrete invocation. -/
theorem c6_witness :
    main "session" Target.dbus_send (some "nm") (.strList ["Crash"])
        [⟨"f", ["i;o;m;Crash"]⟩]
      = .ok (true,
          linesStdout "session" Target.dbus_send (some "nm") (.strList ["Crash"])
            (fileLines [⟨"f", ["i;o;m;Crash"]⟩]),
          linesStderr "session" Target.dbus_send (some "nm") (.strList ["Crash"])
            (fileLines [⟨"f", ["i;o;m;Crash"]⟩])) :=
  (c6_filter_gate "session" Target.dbus_send "nm" ["Crash"]
    [⟨"f", ["i;o;m;Crash"]⟩] (by decide)).1

theorem dbus_send_format_go_tokens (pairs : List (String × String))
    (h : ∀ p ∈ pairs, dbusArgToken p.1 p.2 ≠ none) :
    ∀ ret : String,
      dbus_send_format_go (pairs.map (fun p => [p.1, p.2])) ret
        = .ok (.str (ret ++ dbusTokens pairs), []) := by
  induction pairs with
  | nil =>
    intro ret
    simp only [List.map_nil, dbus_send_format_go, dbusTokens, String.append_empty]
  | cons p rest ih =>
    intro ret
    obtain ⟨t, v⟩ := p
    have hp : dbusArgToken t v ≠ none := h (t, v) (by simp)
    have hrest : ∀ p ∈ rest, dbusArgToken p.1 p.2 ≠ none :=
      fun p hq => h p (List.mem_cons_of_mem (t, v) hq)
    simp only [List.map_cons, dbus_send_format_go_cons, dbusTokens]
    by_cases h0 : t == "/"
    · rw [if_pos h0, ih hrest ret]
      have htok : dbusArgToken t v = some "" := by simp [dbusArgToken, h0]
      rw [htok]
      simp [String.empty_append]
    · rw [if_neg h0]
      cases hd : dictLookup DBUS_SEND_DICT t with
      | some ty =>
        dsimp only
        have htok : dbusArgToken t v = some (ty ++ ":" ++ v ++ " ") := by
          simp [dbusArgToken, h0, hd]
        rw [ih hrest _, htok]
        simp only [Option.getD_some, Except.ok.injEq, Prod.mk.injEq,
          FormatResult.str.injEq, and_true]
        simp [String.append_assoc]
      | none =>
        cases hs : dictLookup DBUS_SEND_STRINGS_DICT t with
        | some ty =>
          dsimp only
          have htok : dbusArgToken t v
              = some (ty ++ ":\"`echo " ++ v ++ " | xxd -r -p`\" ") := by
            simp [dbusArgToken, h0, hd, hs]
          rw [ih hrest _, htok]
          simp only [Option.getD_some, Except.ok.injEq, Prod.mk.injEq,
            FormatResult.str.injEq, and_true]
          simp [String.append_assoc]
        | none =>
          exact absurd (by simp [dbusArgToken, h0, hd, hs]) hp

theorem gdbus_format_go_tokens (pairs : List (String × String)) :
    ∀ ret : String,
      gdbus_format_go (pairs.map (fun p => [p.1, p.2])) ret
        = .ok (ret ++ gdbusTokens pairs) := by
  induction pairs with
  | nil =>
    intro ret
    simp only [List.map_nil, gdbus_format_go, gdbusTokens, String.append_empty]
  | cons p rest ih =>
    intro ret
    obtain ⟨t, v⟩ := p
    simp only [List.map_cons, gdbus_format_go_cons, gdbusTokens, gdbusArgToken]
    by_cases h0 : t == "/"
    · rw [if_pos h0, ih ret]
      simp [h0, String.empty_append]
    · rw [if_neg h0]
      by_cases h1 : pyInStr t "sogv"
      · rw [if_pos h1, ih _]
        simp [h0, h1, String.append_assoc]
      · rw [if_neg h1, ih _]
        simp [h0, h1, String.append_assoc]

theorem gdbusArgToken_stringlike (t v : String) (h1 : pyInStr t "sogv" = true)
    (h0 : (t == "/") = false) :
    gdbusArgToken t v = "\"`echo " ++ v ++ " | xxd -r -p`\" " := by
  simp [gdbusArgToken, h0, h1]

theorem gdbusArgToken_primitive (t v : String) (h1 : pyInStr t "sogv" = false)
    (h0 : (t == "/") = false) :
    gdbusArgToken t v = v ++ " " := by
  simp [gdbusArgToken, h0, h1]

/-! ### C8 -/

/-- C8: string-like arguments are never hex-decoded at generation time. For
Profile A, both formatters are fully characterized by per-argument tokens:
a tag `s` / `o` argument's token is exactly
`string:"` + the decode fragment + `" ` (resp. `objpath:...`), so the raw
hex value appears only inside the quoted command substitution
`"`echo <hex> | xxd -r -p`"`; for Profile B, a string-like tag's token is
exactly the quoted decode fragment with no type prefix. No decoding function
is ever applied to the raw value: it is embedded verbatim inside the
fragment. -/
theorem c8_stringlike_decode_fragment :
    (∀ (pairs : List (String × String)) (ret : String),
      (∀ p ∈ pairs, dbusArgToken p.1 p.2 ≠ none) →
      dbus_send_format_go (pairs.map (fun p => [p.1, p.2])) ret
        = .ok (.str (ret ++ dbusTokens pairs), []))
    ∧ (∀ (pairs : List (String × String)) (ret : String),
      gdbus_format_go (pairs.map (fun p => [p.1, p.2])) ret
        = .ok (ret ++ gdbusTokens pairs))
    ∧ (∀ v : String, dbusArgToken "s" v
        = some ("string" ++ ":\"`echo " ++ v ++ " | xxd -r -p`\" "))
    ∧ (∀ v : String, dbusArgToken "o" v
        = some ("objpath" ++ ":\"`echo " ++ v ++ " | xxd -r -p`\" "))
    ∧ (∀ t v : String, pyInStr t "sogv" = true → (t == "/") = false →
        gdbusArgToken t v = "\"`echo " ++ v ++ " | xxd -r -p`\" ") :=
  ⟨fun pairs ret h => dbus_send_format_go_tokens pairs h ret,
   fun pairs ret => gdbus_format_go_tokens pairs ret,
   fun _ => rfl,
   fun _ => rfl,
   gdbusArgToken_stringlike⟩

/-- Witness for C8 at a concrete string-like argument. -/
theorem c8_witness :
    dbus_send_format_go [["s", "68656c6c6f"]] ""
      = .ok (.str ("" ++ dbusTokens [("s", "68656c6c6f")]), []) :=
  c8_stringlike_decode_fragment.1 [("s", "68656c6c6f")] "" (by decide)

/-! ### C3: amended -/

/-- C3 amended: the CLI target selector accepts only Profile A
(`dbus-send`), which is also the default; the Profile B (`gdbus`) renderer
exists in the program's `functions` table but `gdbus` is not an accepted
`--target` choice (it is commented out in the source as temporarily
disabled). When the Profile B renderer is invoked, it renders a record as
`gdbus call --<bus-scope> --dest <name> --object-path <object_path>
--method <interface>.<method> <args>` with primitive arguments rendered
bare and string-like arguments rendered as a quoted hex-decode fragment
without a type prefix. -/
theorem c3_target_profiles :
    targetChoices = ["dbus-send"]
    ∧ defaultTarget = "dbus-send"
    ∧ defaultTarget ∈ targetChoices
    ∧ targetChoices.contains "gdbus" = false
    ∧ lookupTarget "dbus-send" = some Target.dbus_send
    ∧ lookupTarget "gdbus" = some Target.gdbus
    ∧ (∀ (bus name iface obj method : String)
        (pairs : List (String × String)),
        gdbus bus name iface obj method (pairs.map (fun p => [p.1, p.2]))
          = .ok (["gdbus call --" ++ bus ++ " --dest " ++ name ++
                  " --object-path " ++ obj ++ " --method " ++ iface ++ "." ++
                  method ++ " " ++ gdbusTokens pairs], []))
    ∧ (∀ t v : String, pyInStr t "sogv" = true → (t == "/") = false →
        gdbusArgToken t v = "\"`echo " ++ v ++ " | xxd -r -p`\" ")
    ∧ (∀ t v : String, pyInStr t "sogv" = false → (t == "/") = false →
        gdbusArgToken t v = v ++ " ") := by
  refine ⟨rfl, rfl, by decide, rfl, rfl, rfl, ?_, gdbusArgToken_stringlike,
    gdbusArgToken_primitive⟩
  intro bus name iface obj method pairs
  have h := gdbus_eq_of_format bus name iface obj method
    (pairs.map (fun p => [p.1, p.2])) (gdbusTokens pairs)
    (by simpa using gdbus_format_go_tokens pairs "")
  exact h

/-- Witness for C3 at a concrete record and concrete tags. -/
theorem c3_witness :
    gdbus "session" "nm" "i" "/o" "m" [["s", "68656c6c6f"], ["i", "5"]]
      = .ok (["gdbus call --session --dest nm --object-path /o --method i.m "
              ++ gdbusTokens [("s", "68656c6c6f"), ("i", "5")]], [])
    ∧ gdbusArgToken "s" "68656c6c6f"
        = "\"`echo " ++ "68656c6c6f" ++ " | xxd -r -p`\" "
    ∧ gdbusArgToken "i" "5" = "5" ++ " " :=
  ⟨c3_target_profiles.2.2.2.2.2.2.1 "session" "nm" "i" "/o" "m"
      [("s", "68656c6c6f"), ("i", "5")],
   c3_target_profiles.2.2.2.2.2.2.2.1 "s" "68656c6c6f" (by decide) (by decide),
   c3_target_profiles.2.2.2.2.2.2.2.2 "i" "5" (by decide) (by decide)⟩

theorem processParsed_one_field (bus : String) (tgt : Target)
    (nameUsed : String) (flt : ResultsFilter) (a : String)
    (hm : ResultsFilter.mem flt a = true) :
    processParsed bus tgt nameUsed flt [a] = .error () := by
  simp [processParsed, getIdx, hm, ebind_ok, ebind_error]

theorem processParsed_two_fields (bus : String) (tgt : Target)
    (nameUsed : String) (flt : ResultsFilter) (a b : String)
    (hm : ResultsFilter.mem flt b = true) :
    processParsed bus tgt nameUsed flt [a, b] = .error () := by
  simp [processParsed, getIdx, hm, ebind_ok, ebind_error]

/-! ### C9: amended -/

/-- C9 amended: the program raises an unhandled IndexError exactly on
filter-passing lines with fewer than three semicolon-separated fields
(the accesses `parsed_line[1]` / `parsed_line[2]` are out of bounds).
Filter-passing lines whose fields between the method name and the result
classification are odd in count do NOT raise: the slice
`parsed_line[i:i+2]` pairs the dangling type tag with the
result-classification field itself, which is consumed as the argument's
value (producing a spurious command when the tag is recognized, as the
third conjunct shows for the line `i;o;m;s;Crash`). -/
theorem c9_index_error_short_lines :
    (∀ (bus : String) (tgt : Target) (nm : String) (flt : ResultsFilter)
        (line : String), numFields line < 3 →
        ResultsFilter.mem flt (resultOf line) = true →
        processLine bus tgt nm flt line = .error ())
    ∧ processLine "session" Target.dbus_send "f" (.strList ["Crash"]) "a;Crash"
        = .error ()
    ∧ main "session" Target.dbus_send none (.strList ["Crash"])
          [⟨"f", ["i;o;m;s;Crash"]⟩]
        = .ok (true,
            ["dbus-send --session --dest=f --print-reply o i.m string:\"`echo Crash | xxd -r -p`\" "],
            []) := by
  refine ⟨?_, rfl, rfl⟩
  intro bus tgt nm flt line hlt hm
  have hne := splitFields_ne_nil line
  have hm2 : ResultsFilter.mem flt (lastField (splitFields line)) = true := hm
  have hlen : (splitFields line).length < 3 := hlt
  unfold processLine
  cases hsp : splitFields line with
  | nil => exact absurd hsp hne
  | cons a rest =>
    rw [hsp] at hm2 hlen
    cases rest with
    | nil =>
      exact processParsed_one_field bus tgt nm flt a
        (by simpa [lastField] using hm2)
    | cons b rest2 =>
      cases rest2 with
      | nil =>
        exact processParsed_two_fields bus tgt nm flt a b
          (by simpa [lastField] using hm2)
      | cons c rest3 =>
        exfalso
        simp only [List.length_cons] at hlen
        omega

/-- Witness for C9 at a concrete one-field filter-passing line. -/
theorem c9_witness :
    processLine "system" Target.gdbus "g" (.strList ["Crash"]) "Crash"
      = .error () :=
  c9_index_error_short_lines.1 "system" Target.gdbus "g" (.strList ["Crash"])
    "Crash" (by decide) (by decide)

/-! ### C5: amended -/

/-- C5 amended: whenever `-` is among the input sources and no bus-name
override was given, the program processes no records and emits zero command
lines, prints the usage text to standard error, prints the
bus-name-required message (to standard output, where it is the only stdout
line), and exits with status 2 — for every profile, bus scope and filter
set. -/
theorem c5_stdin_usage_exit (system : Bool) (tgt : Target)
    (flt : ResultsFilter) (files : List InputFile) (argv0 : String)
    (h : ∃ f ∈ files, f.name = "-") :
    runProgram system tgt none flt files argv0
      = .ok ([stdinRequiredMsg argv0], [usageText], 2) := by
  have hany : files.any (fun f => f.name == "-") = true := by
    obtain ⟨f, hf, hn⟩ := h
    exact List.any_eq_true.mpr ⟨f, hf, by simp [hn]⟩
  simp [runProgram, main, hany]

/-- Witness for C5 at a concrete invocation. -/
theorem c5_witness :
    runProgram true Target.gdbus none (.strList ["Success"]) [⟨"-", []⟩] "prog"
      = .ok ([stdinRequiredMsg "prog"], [usageText], 2) :=
  c5_stdin_usage_exit true Target.gdbus (.strList ["Success"]) [⟨"-", []⟩]
    "prog" ⟨⟨"-", []⟩, by simp, rfl⟩

theorem runLines_name_irrel (bus : String) (tgt : Target) (flt : ResultsFilter)
    (n1 n2 : Option String) (lines : List (String × String))
    (h : ∀ p ∈ lines, p.1 ≠ "-") :
    runLines bus tgt n1 flt lines = runLines bus tgt n2 flt lines := by
  induction lines with
  | nil => rfl
  | cons p rest ih =>
    have hp : p.1 ≠ "-" := h p (by simp)
    have hb : (p.1 == "-") = false := by simpa using hp
    have hname : nameUsedFor n1 p.1 = nameUsedFor n2 p.1 := by
      simp [nameUsedFor, hb]
    have hrest : ∀ q ∈ rest, q.1 ≠ "-" :=
      fun q hq => h q (List.mem_cons_of_mem p hq)
    simp only [runLines, hname, ih hrest]

/-! ### C10 -/

/-- C10: noninterference of the bus-name option for file input — when no
input source is `-`, the whole result of `main` (in particular its stdout)
is independent of the `--name` value, because the source name rendered into
every command is derived from the input file's base name and the name
option is consulted only for standard-input records. -/
theorem c10_name_noninterference (bus : String) (tgt : Target)
    (flt : ResultsFilter) (files : List InputFile) (n1 n2 : Option String)
    (h : ∀ f ∈ files, f.name ≠ "-") :
    main bus tgt n1 flt files = main bus tgt n2 flt files := by
  have hany : files.any (fun f => f.name == "-") = false := by
    rw [List.any_eq_false]
    intro f hf
    simpa using h f hf
  have hlines : ∀ p ∈ fileLines files, p.1 ≠ "-" := by
    intro p hp
    obtain ⟨f, hf, h1, _⟩ := fileLines_mem hp
    rw [h1]
    exact h f hf
  simp only [main, hany, Bool.and_false, Bool.false_eq_true, if_false]
  rw [runLines_name_irrel bus tgt flt n1 n2 (fileLines files) hlines]

/-- Witness for C10 at a concrete pair of invocations differing only in the
name option. -/
theorem c10_witness :
    main "session" Target.dbus_send (some "alpha") (.strList ["Crash"])
        [⟨"f", ["i;o;m;Crash"]⟩]
      = main "session" Target.dbus_send (some "beta") (.strList ["Crash"])
        [⟨"f", ["i;o;m;Crash"]⟩] :=
  c10_name_noninterference "session" Target.dbus_send (.strList ["Crash"])
    [⟨"f", ["i;o;m;Crash"]⟩] (some "alpha") (some "beta") (by decide)

end Reprogen
